import Mathlib

/-!
Shallow embedding of the tk-http WebSocket handshake validator
(`src/server/websocket.rs`) and the connection-policy builder
(`src/websocket/config.rs`), with theorems checking the specification's
claims against these definitions.

Strings and byte slices are modelled as `List Nat`: header names and raw
header values carry their bytes, decoded text carries Unicode codepoints
(for pure-ASCII data the two coincide).
-/

namespace TkHttp

abbrev Bytes := List Nat

/-- Codepoints of an ASCII literal, used to transcribe the string and byte
literals of the source. -/
def ascii (s : String) : Bytes := s.toList.map Char.toNat

/-- `u8::to_ascii_lowercase` / `char::to_ascii_lowercase`. -/
def toAsciiLower (c : Nat) : Nat := if 65 ≤ c ∧ c ≤ 90 then c + 32 else c

/-- `eq_ignore_ascii_case` on byte strings (also the behaviour of
`str::eq_ignore_ascii_case`, which compares the underlying bytes). -/
def eqIgnoreAsciiCase (a b : Bytes) : Bool :=
  a.map toAsciiLower == b.map toAsciiLower

/-- The byte set trimmed by `bytes_trim`: CR, LF, space, tab. -/
def isHttpWs (b : Nat) : Bool := b == 13 || b == 10 || b == 32 || b == 9

/-- `bytes_trim` (src/server/websocket.rs lines 21-30): strip leading and
trailing CR/LF/space/tab bytes.  The source loops from the front and then
from the back; here the back loop is the front loop on the reversal. -/
def bytes_trim (x : Bytes) : Bytes :=
  ((x.dropWhile isHttpWs).reverse.dropWhile isHttpWs).reverse

/-- Rust `char::is_whitespace` (the Unicode `White_Space` property), the
trimming predicate of `str::trim`. -/
def isRustWhitespace (c : Nat) : Bool :=
  c == 9 || c == 10 || c == 11 || c == 12 || c == 13 || c == 32 ||
  c == 0x85 || c == 0xA0 || c == 0x1680 ||
  (0x2000 ≤ c && c ≤ 0x200A) || c == 0x2028 || c == 0x2029 ||
  c == 0x202F || c == 0x205F || c == 0x3000

/-- `str::trim` on a codepoint sequence. -/
def strTrim (s : Bytes) : Bytes :=
  ((s.dropWhile isRustWhitespace).reverse.dropWhile isRustWhitespace).reverse

/-- A UTF-8 continuation byte. -/
def isUtf8Cont (b : Nat) : Bool := 0x80 ≤ b && b < 0xC0

/-- `str::from_utf8`: decode a byte sequence to its codepoints, rejecting
truncated sequences, stray continuation bytes, overlong encodings,
surrogates and codepoints above `U+10FFFF`. -/
def utf8Decode : List Nat → Option (List Nat)
  | [] => some []
  | b0 :: rest =>
    if b0 < 0x80 then (utf8Decode rest).map (b0 :: ·)
    else if b0 < 0xC2 then none
    else if b0 < 0xE0 then
      match rest with
      | b1 :: rest2 =>
        if isUtf8Cont b1 then
          (utf8Decode rest2).map (((b0 - 0xC0) * 0x40 + (b1 - 0x80)) :: ·)
        else none
      | [] => none
    else if b0 < 0xF0 then
      match rest with
      | b1 :: b2 :: rest3 =>
        if (if b0 == 0xE0 then decide (0xA0 ≤ b1) && decide (b1 < 0xC0)
            else if b0 == 0xED then decide (0x80 ≤ b1) && decide (b1 < 0xA0)
            else isUtf8Cont b1) && isUtf8Cont b2 then
          (utf8Decode rest3).map
            (((b0 - 0xE0) * 0x1000 + (b1 - 0x80) * 0x40 + (b2 - 0x80)) :: ·)
        else none
      | _ => none
    else if b0 < 0xF5 then
      match rest with
      | b1 :: b2 :: b3 :: rest4 =>
        if (if b0 == 0xF0 then decide (0x90 ≤ b1) && decide (b1 < 0xC0)
            else if b0 == 0xF4 then decide (0x80 ≤ b1) && decide (b1 < 0x90)
            else isUtf8Cont b1) && isUtf8Cont b2 && isUtf8Cont b3 then
          (utf8Decode rest4).map
            (((b0 - 0xF0) * 0x40000 + (b1 - 0x80) * 0x1000 +
              (b2 - 0x80) * 0x40 + (b3 - 0x80)) :: ·)
        else none
      | _ => none
    else none

/-- Modelled from the spec: the accept-token derivation (`websocket::Accept`
and `Accept::from_key_bytes`) is outside the given sources; the spec treats
it as an opaque pure function of the trimmed key bytes with value
semantics, so it is modelled as a record of those bytes. -/
structure Accept where
  key : Bytes
deriving Repr, DecidableEq

def Accept.from_key_bytes (b : Bytes) : Accept := ⟨b⟩

/-- One header of the request head: raw name and value bytes. -/
structure Header where
  name : Bytes
  value : Bytes
deriving Repr, DecidableEq

/-- The request-head view consumed by `get_handshake`: the normalized
`Connection` value (codepoints of the `&str`, or absent), the
request-target, the full header list, and the body-presence flag. -/
structure Head where
  connection_header : Option Bytes
  path : Option Bytes
  all_headers : List Header
  has_body : Bool
deriving Repr, DecidableEq

/-- `WebsocketHandshake` (src/server/websocket.rs lines 11-18). -/
structure WebsocketHandshake where
  accept : Accept
  protocols : List Bytes
  extensions : List Bytes
deriving Repr, DecidableEq

def secWebsocketKey : Bytes := ascii "Sec-WebSocket-Key"
def secWebsocketVersion : Bytes := ascii "Sec-WebSocket-Version"
def secWebsocketProtocol : Bytes := ascii "Sec-WebSocket-Protocol"
def secWebsocketExtensions : Bytes := ascii "Sec-WebSocket-Extensions"
def upgradeName : Bytes := ascii "Upgrade"
def websocketAscii : Bytes := ascii "websocket"

/-- `tokens.split(",").map(|x| x.trim()).filter(|x| x.len() > 0)`, the
token-list parsing applied to `Sec-WebSocket-Protocol` and
`Sec-WebSocket-Extensions` values after UTF-8 decoding. -/
def splitTokens (s : Bytes) : List Bytes :=
  ((s.splitOn 44).map strTrim).filter (fun x => x.length > 0)

/-- Result of the header loop: an early `return Err(())`, an early
`return Ok(None)` on a non-`websocket` `Upgrade` value, or the final
values of the loop's five mutable locals. -/
inductive ScanResult where
  | err
  | notWebsocket
  | state (upgrade : Bool) (version : Bool) (accept : Option Accept)
      (protocols : List Bytes) (extensions : List Bytes)
deriving Repr, DecidableEq

/-- The `for h in req.all_headers()` loop of `get_handshake`
(src/server/websocket.rs lines 48-85), with the mutable locals
`upgrade`, `version`, `accept`, `protocols`, `extensions` passed as
parameters and the early returns as dedicated constructors. -/
def scanHeaders : List Header → Bool → Bool → Option Accept →
    List Bytes → List Bytes → ScanResult
  | [], upgrade, version, accept, protocols, extensions =>
      .state upgrade version accept protocols extensions
  | h :: rest, upgrade, version, accept, protocols, extensions =>
    if eqIgnoreAsciiCase h.name secWebsocketKey then
      if accept.isSome then .err
      else scanHeaders rest upgrade version
        (some (Accept.from_key_bytes (bytes_trim h.value))) protocols extensions
    else if eqIgnoreAsciiCase h.name secWebsocketVersion then
      if bytes_trim h.value ≠ ascii "13" then .err
      else scanHeaders rest upgrade true accept protocols extensions
    else if eqIgnoreAsciiCase h.name secWebsocketProtocol then
      match utf8Decode h.value with
      | none => .err
      | some s => scanHeaders rest upgrade version accept
          (protocols ++ splitTokens s) extensions
    else if eqIgnoreAsciiCase h.name secWebsocketExtensions then
      match utf8Decode h.value with
      | none => .err
      | some s => scanHeaders rest upgrade version accept
          protocols (extensions ++ splitTokens s)
    else if eqIgnoreAsciiCase h.name upgradeName then
      if !(eqIgnoreAsciiCase h.value websocketAscii) then .notWebsocket
      else scanHeaders rest true version accept protocols extensions
    else scanHeaders rest upgrade version accept protocols extensions

/-- `Result<Option<WebsocketHandshake>, ()>`: `Err(())`, `Ok(None)`, or
`Ok(Some(handshake))`. -/
inductive HandshakeResult where
  | err
  | notApplicable
  | handshake (h : WebsocketHandshake)
deriving Repr, DecidableEq

/-- The `conn_upgrade` test of `get_handshake` (lines 33-36): the
`Connection` value split on commas, each token trimmed and compared
ASCII-case-insensitively to `"upgrade"`; `unwrap_or(false)` on absence. -/
def connUpgradeTok (req : Head) : Bool :=
  (req.connection_header.map (fun x =>
    (x.splitOn 44).any (fun tok =>
      eqIgnoreAsciiCase (strTrim tok) (ascii "upgrade")))).getD false

/-- `get_handshake` (src/server/websocket.rs lines 32-103). -/
def get_handshake (req : Head) : HandshakeResult :=
  if !(connUpgradeTok req) then .notApplicable
  else if req.path.isNone then .err
  else
    match scanHeaders req.all_headers false false none [] [] with
    | .err => .err
    | .notWebsocket => .notApplicable
    | .state upgrade version accept protocols extensions =>
      if req.has_body then .err
      else if !upgrade then .err
      else if !version || accept.isNone then .err
      else
        match accept with
        | some a => .handshake ⟨a, protocols, extensions⟩
        | none => .err

/-! ## Connection policy (`src/websocket/config.rs`) -/

/-- `std::time::Duration`: seconds and nanoseconds. -/
structure Duration where
  secs : Nat
  nanos : Nat
deriving Repr, DecidableEq

def Duration.new (secs nanos : Nat) : Duration := ⟨secs, nanos⟩

/-- `websocket::Config`: the connection policy record. -/
structure Config where
  ping_interval : Duration
  message_timeout : Duration
  byte_timeout : Duration
  max_packet_size : Nat
deriving Repr, DecidableEq

/-- `Config::new` (src/websocket/config.rs lines 8-15). -/
def Config.new : Config :=
  { ping_interval := Duration.new 10 0
    message_timeout := Duration.new 30 0
    byte_timeout := Duration.new 30 0
    max_packet_size := 10 <<< 20 }

/-- `Config::ping_interval` setter: the `&mut self` receiver becomes an
explicit state-passing function. -/
def Config.set_ping_interval (c : Config) (dur : Duration) : Config :=
  { c with ping_interval := dur }

/-- `Config::message_timeout` setter. -/
def Config.set_message_timeout (c : Config) (dur : Duration) : Config :=
  { c with message_timeout := dur }

/-- `Config::inactivity_timeout`: sets both `message_timeout` and
`byte_timeout` to the same value. -/
def Config.inactivity_timeout (c : Config) (dur : Duration) : Config :=
  { c with message_timeout := dur, byte_timeout := dur }

/-- `Config::byte_timeout` setter. -/
def Config.set_byte_timeout (c : Config) (dur : Duration) : Config :=
  { c with byte_timeout := dur }

/-- `Config::max_packet_size` setter. -/
def Config.set_max_packet_size (c : Config) (size : Nat) : Config :=
  { c with max_packet_size := size }

/-- `Config::done`: `Arc::new(self.clone())` — a value copy of the
builder's current fields, frozen into an immutable handle. -/
def Config.done (c : Config) : Config := c

/-! ## Classifying predicates over headers and header lists -/

def isKeyName (h : Header) : Bool := eqIgnoreAsciiCase h.name secWebsocketKey
def isVersionName (h : Header) : Bool := eqIgnoreAsciiCase h.name secWebsocketVersion
def isProtocolName (h : Header) : Bool := eqIgnoreAsciiCase h.name secWebsocketProtocol
def isExtensionsName (h : Header) : Bool := eqIgnoreAsciiCase h.name secWebsocketExtensions
def isUpgradeName (h : Header) : Bool := eqIgnoreAsciiCase h.name upgradeName

/-- An `Upgrade` header whose raw value is not `websocket` up to ASCII case:
the header that makes the scan reclassify the request as not a WebSocket
request. -/
def isUpgradeMismatch (h : Header) : Bool :=
  isUpgradeName h && !(eqIgnoreAsciiCase h.value websocketAscii)

/-- Number of headers whose name matches `n` case-insensitively. -/
def countName (n : Bytes) (hs : List Header) : Nat :=
  (hs.filter (fun h => eqIgnoreAsciiCase h.name n)).length

/-- A rejecting condition occurs in header order before any `Upgrade`
header with a non-`websocket` value: a second `Sec-WebSocket-Key` (the
`seenKey` parameter carries whether one was already consumed), a
`Sec-WebSocket-Version` whose trimmed value is not `13`, or
`Sec-WebSocket-Protocol`/`-Extensions` bytes that are not valid UTF-8. -/
def hasEarlyError (seenKey : Bool) : List Header → Bool
  | [] => false
  | h :: t =>
    if isKeyName h then (if seenKey then true else hasEarlyError true t)
    else if isVersionName h then
      (if bytes_trim h.value ≠ ascii "13" then true else hasEarlyError seenKey t)
    else if isProtocolName h || isExtensionsName h then
      (if utf8Decode h.value = none then true else hasEarlyError seenKey t)
    else if isUpgradeMismatch h then false
    else hasEarlyError seenKey t

/-- A `Sec-WebSocket-Key` header occurs before any `Upgrade` header with a
non-`websocket` value. -/
def hasKeyBeforeMismatch : List Header → Bool
  | [] => false
  | h :: t =>
    if isKeyName h then true
    else if isUpgradeMismatch h then false
    else hasKeyBeforeMismatch t

/-- Two `Sec-WebSocket-Key` headers occur, and no `Upgrade` header with a
non-`websocket` value precedes the second of them. -/
def hasDupKeyNoEscape : List Header → Bool
  | [] => false
  | h :: t =>
    if isKeyName h then hasKeyBeforeMismatch t
    else if isUpgradeMismatch h then false
    else hasDupKeyNoEscape t

/-- A `Sec-WebSocket-Version` header with trimmed value other than `13`
occurs, and no `Upgrade` header with a non-`websocket` value precedes
it. -/
def hasBadVersionNoEscape : List Header → Bool
  | [] => false
  | h :: t =>
    if isKeyName h then hasBadVersionNoEscape t
    else if isVersionName h then
      (if bytes_trim h.value ≠ ascii "13" then true else hasBadVersionNoEscape t)
    else if isUpgradeMismatch h then false
    else hasBadVersionNoEscape t

/-! ## Concrete request heads used as test vectors -/

/-- `Connection: keep-alive, Upgrade`, `Upgrade: websocket`,
`Sec-WebSocket-Version: 13`, a single `Sec-WebSocket-Key`, no body. -/
def reqValid : Head :=
  { connection_header := some (ascii "keep-alive, Upgrade")
    path := some (ascii "/chat")
    all_headers :=
      [⟨ascii "Sec-WebSocket-Key", ascii "dGhlIHNhbXBsZSBub25jZQ=="⟩,
       ⟨ascii "Sec-WebSocket-Version", ascii "13"⟩,
       ⟨ascii "Upgrade", ascii "websocket"⟩]
    has_body := false }

/-- As `reqValid` but with `Upgrade: h2c`. -/
def reqH2c : Head :=
  { connection_header := some (ascii "keep-alive, Upgrade")
    path := some (ascii "/chat")
    all_headers :=
      [⟨ascii "Sec-WebSocket-Key", ascii "dGhlIHNhbXBsZSBub25jZQ=="⟩,
       ⟨ascii "Sec-WebSocket-Version", ascii "13"⟩,
       ⟨ascii "Upgrade", ascii "h2c"⟩]
    has_body := false }

/-- As `reqValid` but the `Upgrade` value carries surrounding whitespace:
`" websocket "`. -/
def reqSpacedUpgrade : Head :=
  { connection_header := some (ascii "upgrade")
    path := some (ascii "/chat")
    all_headers :=
      [⟨ascii "Sec-WebSocket-Key", ascii "dGhlIHNhbXBsZSBub25jZQ=="⟩,
       ⟨ascii "Sec-WebSocket-Version", ascii "13"⟩,
       ⟨ascii "Upgrade", ascii " websocket "⟩]
    has_body := false }

/-- Two identical `Sec-WebSocket-Key` headers with an `Upgrade: h2c`
between them. -/
def reqDupKeyEscaped : Head :=
  { connection_header := some (ascii "upgrade")
    path := some (ascii "/chat")
    all_headers :=
      [⟨ascii "Sec-WebSocket-Key", ascii "dGhlIHNhbXBsZSBub25jZQ=="⟩,
       ⟨ascii "Upgrade", ascii "h2c"⟩,
       ⟨ascii "Sec-WebSocket-Key", ascii "dGhlIHNhbXBsZSBub25jZQ=="⟩]
    has_body := false }

/-- Two identical `Sec-WebSocket-Key` headers, otherwise as `reqValid`. -/
def reqDupKey : Head :=
  { connection_header := some (ascii "upgrade")
    path := some (ascii "/chat")
    all_headers :=
      [⟨ascii "Sec-WebSocket-Key", ascii "dGhlIHNhbXBsZSBub25jZQ=="⟩,
       ⟨ascii "Sec-WebSocket-Key", ascii "dGhlIHNhbXBsZSBub25jZQ=="⟩,
       ⟨ascii "Sec-WebSocket-Version", ascii "13"⟩,
       ⟨ascii "Upgrade", ascii "websocket"⟩]
    has_body := false }

/-- `Sec-WebSocket-Version: 8` preceded by `Upgrade: h2c`. -/
def reqBadVerEscaped : Head :=
  { connection_header := some (ascii "upgrade")
    path := some (ascii "/chat")
    all_headers :=
      [⟨ascii "Upgrade", ascii "h2c"⟩,
       ⟨ascii "Sec-WebSocket-Version", ascii "8"⟩,
       ⟨ascii "Sec-WebSocket-Key", ascii "dGhlIHNhbXBsZSBub25jZQ=="⟩]
    has_body := false }

/-- `Sec-WebSocket-Version: 8`, otherwise as `reqValid`. -/
def reqBadVer : Head :=
  { connection_header := some (ascii "upgrade")
    path := some (ascii "/chat")
    all_headers :=
      [⟨ascii "Sec-WebSocket-Key", ascii "dGhlIHNhbXBsZSBub25jZQ=="⟩,
       ⟨ascii "Sec-WebSocket-Version", ascii "8"⟩,
       ⟨ascii "Upgrade", ascii "websocket"⟩]
    has_body := false }

/-- Two `Sec-WebSocket-Protocol` headers (`"chat, superchat"` then
`"binary"`), otherwise as `reqValid`. -/
def reqProtocols : Head :=
  { connection_header := some (ascii "keep-alive, Upgrade")
    path := some (ascii "/chat")
    all_headers :=
      [⟨ascii "Sec-WebSocket-Protocol", ascii "chat, superchat"⟩,
       ⟨ascii "Sec-WebSocket-Protocol", ascii "binary"⟩,
       ⟨ascii "Sec-WebSocket-Key", ascii "dGhlIHNhbXBsZSBub25jZQ=="⟩,
       ⟨ascii "Sec-WebSocket-Version", ascii "13"⟩,
       ⟨ascii "Upgrade", ascii "websocket"⟩]
    has_body := false }

/-- As `reqValid` but with a message body present. -/
def reqWithBody : Head :=
  { connection_header := some (ascii "keep-alive, Upgrade")
    path := some (ascii "/chat")
    all_headers :=
      [⟨ascii "Sec-WebSocket-Key", ascii "dGhlIHNhbXBsZSBub25jZQ=="⟩,
       ⟨ascii "Sec-WebSocket-Version", ascii "13"⟩,
       ⟨ascii "Upgrade", ascii "websocket"⟩]
    has_body := true }

/-- A duplicate `Sec-WebSocket-Key` occurring before an `Upgrade: h2c`. -/
def reqDupKeyThenH2c : Head :=
  { connection_header := some (ascii "upgrade")
    path := some (ascii "/chat")
    all_headers :=
      [⟨ascii "Sec-WebSocket-Key", ascii "dGhlIHNhbXBsZSBub25jZQ=="⟩,
       ⟨ascii "Sec-WebSocket-Key", ascii "dGhlIHNhbXBsZSBub25jZQ=="⟩,
       ⟨ascii "Upgrade", ascii "h2c"⟩]
    has_body := false }

/-! ## Disambiguation of the five header-name tests -/

theorem eqIC_congr {a b : Bytes} (hab : eqIgnoreAsciiCase a b = true)
    (c : Bytes) : eqIgnoreAsciiCase a c = eqIgnoreAsciiCase b c := by
  unfold eqIgnoreAsciiCase at *
  rw [beq_iff_eq] at hab
  rw [hab]

theorem isVersionName_not_key {h : Header} (hv : isVersionName h = true) :
    isKeyName h = false := by
  unfold isVersionName at hv
  unfold isKeyName
  rw [eqIC_congr hv]
  decide

theorem isProtocolName_not_key {h : Header} (hv : isProtocolName h = true) :
    isKeyName h = false := by
  unfold isProtocolName at hv
  unfold isKeyName
  rw [eqIC_congr hv]
  decide

theorem isProtocolName_not_version {h : Header} (hv : isProtocolName h = true) :
    isVersionName h = false := by
  unfold isProtocolName at hv
  unfold isVersionName
  rw [eqIC_congr hv]
  decide

theorem isExtensionsName_not_key {h : Header} (hv : isExtensionsName h = true) :
    isKeyName h = false := by
  unfold isExtensionsName at hv
  unfold isKeyName
  rw [eqIC_congr hv]
  decide

theorem isExtensionsName_not_version {h : Header} (hv : isExtensionsName h = true) :
    isVersionName h = false := by
  unfold isExtensionsName at hv
  unfold isVersionName
  rw [eqIC_congr hv]
  decide

theorem isExtensionsName_not_protocol {h : Header} (hv : isExtensionsName h = true) :
    isProtocolName h = false := by
  unfold isExtensionsName at hv
  unfold isProtocolName
  rw [eqIC_congr hv]
  decide

theorem isUpgradeName_not_key {h : Header} (hv : isUpgradeName h = true) :
    isKeyName h = false := by
  unfold isUpgradeName at hv
  unfold isKeyName
  rw [eqIC_congr hv]
  decide

theorem isUpgradeName_not_version {h : Header} (hv : isUpgradeName h = true) :
    isVersionName h = false := by
  unfold isUpgradeName at hv
  unfold isVersionName
  rw [eqIC_congr hv]
  decide

theorem isUpgradeName_not_protocol {h : Header} (hv : isUpgradeName h = true) :
    isProtocolName h = false := by
  unfold isUpgradeName at hv
  unfold isProtocolName
  rw [eqIC_congr hv]
  decide

theorem isUpgradeName_not_extensions {h : Header} (hv : isUpgradeName h = true) :
    isExtensionsName h = false := by
  unfold isUpgradeName at hv
  unfold isExtensionsName
  rw [eqIC_congr hv]
  decide

/-! ## Branch equations for the header scan -/

theorem scanHeaders_nil {u v : Bool} {a : Option Accept} {p e : List Bytes} :
    scanHeaders [] u v a p e = .state u v a p e := rfl

theorem scanHeaders_key_dup {hd : Header} {rest : List Header} {u v : Bool}
    {a : Option Accept} {p e : List Bytes}
    (hk : isKeyName hd = true) (ha : a.isSome = true) :
    scanHeaders (hd :: rest) u v a p e = .err := by
  unfold isKeyName at hk
  simp [scanHeaders, hk, ha]

theorem scanHeaders_key_first {hd : Header} {rest : List Header} {u v : Bool}
    {p e : List Bytes} (hk : isKeyName hd = true) :
    scanHeaders (hd :: rest) u v none p e =
      scanHeaders rest u v (some (Accept.from_key_bytes (bytes_trim hd.value))) p e := by
  unfold isKeyName at hk
  simp [scanHeaders, hk]

theorem scanHeaders_version_bad {hd : Header} {rest : List Header} {u v : Bool}
    {a : Option Accept} {p e : List Bytes}
    (hv : isVersionName hd = true) (hval : bytes_trim hd.value ≠ ascii "13") :
    scanHeaders (hd :: rest) u v a p e = .err := by
  have hk := isVersionName_not_key hv
  unfold isVersionName at hv
  unfold isKeyName at hk
  simp [scanHeaders, hk, hv, hval]

theorem scanHeaders_version_ok {hd : Header} {rest : List Header} {u v : Bool}
    {a : Option Accept} {p e : List Bytes}
    (hv : isVersionName hd = true) (hval : bytes_trim hd.value = ascii "13") :
    scanHeaders (hd :: rest) u v a p e = scanHeaders rest u true a p e := by
  have hk := isVersionName_not_key hv
  unfold isVersionName at hv
  unfold isKeyName at hk
  simp [scanHeaders, hk, hv, hval]

theorem scanHeaders_protocol_bad {hd : Header} {rest : List Header} {u v : Bool}
    {a : Option Accept} {p e : List Bytes}
    (hp : isProtocolName hd = true) (hval : utf8Decode hd.value = none) :
    scanHeaders (hd :: rest) u v a p e = .err := by
  have hk := isProtocolName_not_key hp
  have hv := isProtocolName_not_version hp
  unfold isProtocolName at hp
  unfold isKeyName at hk
  unfold isVersionName at hv
  simp [scanHeaders, hk, hv, hp, hval]

theorem scanHeaders_protocol_ok {hd : Header} {rest : List Header} {u v : Bool}
    {a : Option Accept} {p e : List Bytes} {s : Bytes}
    (hp : isProtocolName hd = true) (hval : utf8Decode hd.value = some s) :
    scanHeaders (hd :: rest) u v a p e =
      scanHeaders rest u v a (p ++ splitTokens s) e := by
  have hk := isProtocolName_not_key hp
  have hv := isProtocolName_not_version hp
  unfold isProtocolName at hp
  unfold isKeyName at hk
  unfold isVersionName at hv
  simp [scanHeaders, hk, hv, hp, hval]

theorem scanHeaders_extensions_bad {hd : Header} {rest : List Header} {u v : Bool}
    {a : Option Accept} {p e : List Bytes}
    (hx : isExtensionsName hd = true) (hval : utf8Decode hd.value = none) :
    scanHeaders (hd :: rest) u v a p e = .err := by
  have hk := isExtensionsName_not_key hx
  have hv := isExtensionsName_not_version hx
  have hp := isExtensionsName_not_protocol hx
  unfold isExtensionsName at hx
  unfold isKeyName at hk
  unfold isVersionName at hv
  unfold isProtocolName at hp
  simp [scanHeaders, hk, hv, hp, hx, hval]

theorem scanHeaders_extensions_ok {hd : Header} {rest : List Header} {u v : Bool}
    {a : Option Accept} {p e : List Bytes} {s : Bytes}
    (hx : isExtensionsName hd = true) (hval : utf8Decode hd.value = some s) :
    scanHeaders (hd :: rest) u v a p e =
      scanHeaders rest u v a p (e ++ splitTokens s) := by
  have hk := isExtensionsName_not_key hx
  have hv := isExtensionsName_not_version hx
  have hp := isExtensionsName_not_protocol hx
  unfold isExtensionsName at hx
  unfold isKeyName at hk
  unfold isVersionName at hv
  unfold isProtocolName at hp
  simp [scanHeaders, hk, hv, hp, hx, hval]

theorem scanHeaders_upgrade_mismatch {hd : Header} {rest : List Header} {u v : Bool}
    {a : Option Accept} {p e : List Bytes}
    (hu : isUpgradeName hd = true)
    (hval : eqIgnoreAsciiCase hd.value websocketAscii = false) :
    scanHeaders (hd :: rest) u v a p e = .notWebsocket := by
  have hk := isUpgradeName_not_key hu
  have hv := isUpgradeName_not_version hu
  have hp := isUpgradeName_not_protocol hu
  have hx := isUpgradeName_not_extensions hu
  unfold isUpgradeName at hu
  unfold isKeyName at hk
  unfold isVersionName at hv
  unfold isProtocolName at hp
  unfold isExtensionsName at hx
  simp [scanHeaders, hk, hv, hp, hx, hu, hval]

theorem scanHeaders_upgrade_match {hd : Header} {rest : List Header} {u v : Bool}
    {a : Option Accept} {p e : List Bytes}
    (hu : isUpgradeName hd = true)
    (hval : eqIgnoreAsciiCase hd.value websocketAscii = true) :
    scanHeaders (hd :: rest) u v a p e = scanHeaders rest true v a p e := by
  have hk := isUpgradeName_not_key hu
  have hv := isUpgradeName_not_version hu
  have hp := isUpgradeName_not_protocol hu
  have hx := isUpgradeName_not_extensions hu
  unfold isUpgradeName at hu
  unfold isKeyName at hk
  unfold isVersionName at hv
  unfold isProtocolName at hp
  unfold isExtensionsName at hx
  simp [scanHeaders, hk, hv, hp, hx, hu, hval]

theorem scanHeaders_other {hd : Header} {rest : List Header} {u v : Bool}
    {a : Option Accept} {p e : List Bytes}
    (hk : isKeyName hd = false) (hv : isVersionName hd = false)
    (hp : isProtocolName hd = false) (hx : isExtensionsName hd = false)
    (hu : isUpgradeName hd = false) :
    scanHeaders (hd :: rest) u v a p e = scanHeaders rest u v a p e := by
  unfold isKeyName at hk
  unfold isVersionName at hv
  unfold isProtocolName at hp
  unfold isExtensionsName at hx
  unfold isUpgradeName at hu
  simp [scanHeaders, hk, hv, hp, hx, hu]

/-- Exhaustive case split on one step of the header scan, following the
if-else chain of the loop body. -/
theorem scan_cons_step (hd : Header) (rest : List Header) (u v : Bool)
    (a : Option Accept) (p e : List Bytes) :
    (isKeyName hd = true ∧ a.isSome = true ∧
       scanHeaders (hd :: rest) u v a p e = .err) ∨
    (isKeyName hd = true ∧ a = none ∧
       scanHeaders (hd :: rest) u v a p e =
         scanHeaders rest u v
           (some (Accept.from_key_bytes (bytes_trim hd.value))) p e) ∨
    (isKeyName hd = false ∧ isVersionName hd = true ∧
     bytes_trim hd.value ≠ ascii "13" ∧
       scanHeaders (hd :: rest) u v a p e = .err) ∨
    (isKeyName hd = false ∧ isVersionName hd = true ∧
     bytes_trim hd.value = ascii "13" ∧
       scanHeaders (hd :: rest) u v a p e = scanHeaders rest u true a p e) ∨
    ((isProtocolName hd = true ∨ isExtensionsName hd = true) ∧
     utf8Decode hd.value = none ∧
       scanHeaders (hd :: rest) u v a p e = .err) ∨
    (∃ s, isProtocolName hd = true ∧ utf8Decode hd.value = some s ∧
       scanHeaders (hd :: rest) u v a p e =
         scanHeaders rest u v a (p ++ splitTokens s) e) ∨
    (∃ s, isExtensionsName hd = true ∧ utf8Decode hd.value = some s ∧
       scanHeaders (hd :: rest) u v a p e =
         scanHeaders rest u v a p (e ++ splitTokens s)) ∨
    (isUpgradeName hd = true ∧
     eqIgnoreAsciiCase hd.value websocketAscii = false ∧
       scanHeaders (hd :: rest) u v a p e = .notWebsocket) ∨
    (isUpgradeName hd = true ∧
     eqIgnoreAsciiCase hd.value websocketAscii = true ∧
       scanHeaders (hd :: rest) u v a p e = scanHeaders rest true v a p e) ∨
    (isKeyName hd = false ∧ isVersionName hd = false ∧
     isProtocolName hd = false ∧ isExtensionsName hd = false ∧
     isUpgradeName hd = false ∧
       scanHeaders (hd :: rest) u v a p e = scanHeaders rest u v a p e) := by
  by_cases hk : isKeyName hd = true
  · cases ha : a with
    | some a0 =>
      exact Or.inl ⟨hk, rfl, scanHeaders_key_dup hk rfl⟩
    | none =>
      exact Or.inr (Or.inl ⟨hk, rfl, scanHeaders_key_first hk⟩)
  · replace hk : isKeyName hd = false := by simpa using hk
    by_cases hv : isVersionName hd = true
    · by_cases hval : bytes_trim hd.value = ascii "13"
      · exact Or.inr (Or.inr (Or.inr (Or.inl
          ⟨hk, hv, hval, scanHeaders_version_ok hv hval⟩)))
      · exact Or.inr (Or.inr (Or.inl
          ⟨hk, hv, hval, scanHeaders_version_bad hv hval⟩))
    · replace hv : isVersionName hd = false := by simpa using hv
      by_cases hp : isProtocolName hd = true
      · cases hdec : utf8Decode hd.value with
        | none =>
          exact Or.inr (Or.inr (Or.inr (Or.inr (Or.inl
            ⟨Or.inl hp, rfl, scanHeaders_protocol_bad hp hdec⟩))))
        | some s =>
          exact Or.inr (Or.inr (Or.inr (Or.inr (Or.inr (Or.inl
            ⟨s, hp, rfl, scanHeaders_protocol_ok hp hdec⟩)))))
      · replace hp : isProtocolName hd = false := by simpa using hp
        by_cases hx : isExtensionsName hd = true
        · cases hdec : utf8Decode hd.value with
          | none =>
            exact Or.inr (Or.inr (Or.inr (Or.inr (Or.inl
              ⟨Or.inr hx, rfl, scanHeaders_extensions_bad hx hdec⟩))))
          | some s =>
            exact Or.inr (Or.inr (Or.inr (Or.inr (Or.inr (Or.inr (Or.inl
              ⟨s, hx, rfl, scanHeaders_extensions_ok hx hdec⟩))))))
        · replace hx : isExtensionsName hd = false := by simpa using hx
          by_cases hu : isUpgradeName hd = true
          · by_cases huval : eqIgnoreAsciiCase hd.value websocketAscii = true
            · exact Or.inr (Or.inr (Or.inr (Or.inr (Or.inr (Or.inr (Or.inr
                (Or.inr (Or.inl ⟨hu, huval, scanHeaders_upgrade_match hu huval⟩))))))))
            · replace huval : eqIgnoreAsciiCase hd.value websocketAscii = false := by
                simpa using huval
              exact Or.inr (Or.inr (Or.inr (Or.inr (Or.inr (Or.inr (Or.inr
                (Or.inl ⟨hu, huval, scanHeaders_upgrade_mismatch hu huval⟩)))))))
          · replace hu : isUpgradeName hd = false := by simpa using hu
            exact Or.inr (Or.inr (Or.inr (Or.inr (Or.inr (Or.inr (Or.inr
              (Or.inr (Or.inr
                ⟨hk, hv, hp, hx, hu, scanHeaders_other hk hv hp hx hu⟩))))))))

theorem countName_cons_pos {n : Bytes} {hd : Header} {rest : List Header}
    (h : eqIgnoreAsciiCase hd.name n = true) :
    countName n (hd :: rest) = countName n rest + 1 := by
  simp [countName, List.filter_cons, h]

theorem countName_cons_neg {n : Bytes} {hd : Header} {rest : List Header}
    (h : eqIgnoreAsciiCase hd.name n = false) :
    countName n (hd :: rest) = countName n rest := by
  simp [countName, List.filter_cons, h]

theorem countKey_cons_pos {hd : Header} {rest : List Header}
    (hk : isKeyName hd = true) :
    countName secWebsocketKey (hd :: rest) = countName secWebsocketKey rest + 1 := by
  unfold isKeyName at hk
  exact countName_cons_pos hk

theorem countKey_cons_neg {hd : Header} {rest : List Header}
    (hk : isKeyName hd = false) :
    countName secWebsocketKey (hd :: rest) = countName secWebsocketKey rest := by
  unfold isKeyName at hk
  exact countName_cons_neg hk

/-- If `isKeyName hd` is false for a reason given by another name match,
reduce the key count. -/
theorem countKey_cons_of_proto {hd : Header} {rest : List Header}
    (hp : isProtocolName hd = true) :
    countName secWebsocketKey (hd :: rest) = countName secWebsocketKey rest :=
  countKey_cons_neg (isProtocolName_not_key hp)

theorem countKey_cons_of_ext {hd : Header} {rest : List Header}
    (hx : isExtensionsName hd = true) :
    countName secWebsocketKey (hd :: rest) = countName secWebsocketKey rest :=
  countKey_cons_neg (isExtensionsName_not_key hx)

theorem countKey_cons_of_upgrade {hd : Header} {rest : List Header}
    (hu : isUpgradeName hd = true) :
    countName secWebsocketKey (hd :: rest) = countName secWebsocketKey rest :=
  countKey_cons_neg (isUpgradeName_not_key hu)

/-! ## Invariants of the header scan -/

/-- Once a key is captured, a completed scan means no further
`Sec-WebSocket-Key` header occurred and the captured accept is kept. -/
theorem scanState_key_some {hs : List Header} {u v u' v' : Bool} {a0 : Accept}
    {a' : Option Accept} {p e p' e' : List Bytes}
    (h : scanHeaders hs u v (some a0) p e = .state u' v' a' p' e') :
    a' = some a0 ∧ countName secWebsocketKey hs = 0 := by
  induction hs generalizing u v p e with
  | nil =>
    rw [scanHeaders_nil] at h
    cases h
    exact ⟨rfl, rfl⟩
  | cons hd rest ih =>
    rcases scan_cons_step hd rest u v (some a0) p e with
      ⟨hk, _, hs0⟩ | ⟨_, ha, _⟩ | ⟨hk, hv, hval, hs0⟩ | ⟨hk, hv, hval, hs0⟩ |
      ⟨hpe, hdec, hs0⟩ | ⟨s, hp, hdec, hs0⟩ | ⟨s, hx, hdec, hs0⟩ |
      ⟨hu, huval, hs0⟩ | ⟨hu, huval, hs0⟩ | ⟨hk, hv, hp, hx, hu, hs0⟩
    · rw [hs0] at h; cases h
    · cases ha
    · rw [hs0] at h; cases h
    · rw [hs0] at h
      rw [countKey_cons_neg hk]
      exact ih h
    · rw [hs0] at h; cases h
    · rw [hs0] at h
      rw [countKey_cons_of_proto hp]
      exact ih h
    · rw [hs0] at h
      rw [countKey_cons_of_ext hx]
      exact ih h
    · rw [hs0] at h; cases h
    · rw [hs0] at h
      rw [countKey_cons_of_upgrade hu]
      exact ih h
    · rw [hs0] at h
      rw [countKey_cons_neg hk]
      exact ih h

/-- Starting with no key captured, a completed scan captured an accept iff
exactly one `Sec-WebSocket-Key` header occurred. -/
theorem scanState_key_none {hs : List Header} {u v u' v' : Bool}
    {a' : Option Accept} {p e p' e' : List Bytes}
    (h : scanHeaders hs u v none p e = .state u' v' a' p' e') :
    (a' = none ∧ countName secWebsocketKey hs = 0) ∨
    (a'.isSome = true ∧ countName secWebsocketKey hs = 1) := by
  induction hs generalizing u v p e with
  | nil =>
    rw [scanHeaders_nil] at h
    cases h
    exact Or.inl ⟨rfl, rfl⟩
  | cons hd rest ih =>
    rcases scan_cons_step hd rest u v none p e with
      ⟨hk, ha, hs0⟩ | ⟨hk, _, hs0⟩ | ⟨hk, hv, hval, hs0⟩ | ⟨hk, hv, hval, hs0⟩ |
      ⟨hpe, hdec, hs0⟩ | ⟨s, hp, hdec, hs0⟩ | ⟨s, hx, hdec, hs0⟩ |
      ⟨hu, huval, hs0⟩ | ⟨hu, huval, hs0⟩ | ⟨hk, hv, hp, hx, hu, hs0⟩
    · cases ha
    · rw [hs0] at h
      rcases scanState_key_some h with ⟨ha', hcount⟩
      refine Or.inr ⟨by rw [ha']; rfl, ?_⟩
      rw [countKey_cons_pos hk, hcount]
    · rw [hs0] at h; cases h
    · rw [hs0] at h
      rw [countKey_cons_neg hk]
      exact ih h
    · rw [hs0] at h; cases h
    · rw [hs0] at h
      rw [countKey_cons_of_proto hp]
      exact ih h
    · rw [hs0] at h
      rw [countKey_cons_of_ext hx]
      exact ih h
    · rw [hs0] at h; cases h
    · rw [hs0] at h
      rw [countKey_cons_of_upgrade hu]
      exact ih h
    · rw [hs0] at h
      rw [countKey_cons_neg hk]
      exact ih h

/-- A completed scan reports `upgrade = true` only if it started true or
some `Upgrade: websocket` header (matched case-insensitively, untrimmed)
occurred. -/
theorem scanState_upgrade_true {hs : List Header} {u v u' v' : Bool}
    {a a' : Option Accept} {p e p' e' : List Bytes}
    (h : scanHeaders hs u v a p e = .state u' v' a' p' e') (hu' : u' = true) :
    u = true ∨ ∃ hd ∈ hs, isUpgradeName hd = true ∧
      eqIgnoreAsciiCase hd.value websocketAscii = true := by
  induction hs generalizing u v a p e with
  | nil =>
    rw [scanHeaders_nil] at h
    cases h
    exact Or.inl hu'
  | cons hd rest ih =>
    rcases scan_cons_step hd rest u v a p e with
      ⟨hk, ha, hs0⟩ | ⟨hk, ha, hs0⟩ | ⟨hk, hv, hval, hs0⟩ | ⟨hk, hv, hval, hs0⟩ |
      ⟨hpe, hdec, hs0⟩ | ⟨s, hp, hdec, hs0⟩ | ⟨s, hx, hdec, hs0⟩ |
      ⟨hu, huval, hs0⟩ | ⟨hu, huval, hs0⟩ | ⟨hk, hv, hp, hx, hu, hs0⟩
    · rw [hs0] at h; cases h
    · rw [hs0] at h
      rcases ih h with h1 | ⟨w, hw, hw2⟩
      · exact Or.inl h1
      · exact Or.inr ⟨w, List.mem_cons_of_mem _ hw, hw2⟩
    · rw [hs0] at h; cases h
    · rw [hs0] at h
      rcases ih h with h1 | ⟨w, hw, hw2⟩
      · exact Or.inl h1
      · exact Or.inr ⟨w, List.mem_cons_of_mem _ hw, hw2⟩
    · rw [hs0] at h; cases h
    · rw [hs0] at h
      rcases ih h with h1 | ⟨w, hw, hw2⟩
      · exact Or.inl h1
      · exact Or.inr ⟨w, List.mem_cons_of_mem _ hw, hw2⟩
    · rw [hs0] at h
      rcases ih h with h1 | ⟨w, hw, hw2⟩
      · exact Or.inl h1
      · exact Or.inr ⟨w, List.mem_cons_of_mem _ hw, hw2⟩
    · rw [hs0] at h; cases h
    · exact Or.inr ⟨hd, List.mem_cons_self _ _, hu, huval⟩
    · rw [hs0] at h
      rcases ih h with h1 | ⟨w, hw, hw2⟩
      · exact Or.inl h1
      · exact Or.inr ⟨w, List.mem_cons_of_mem _ hw, hw2⟩

/-- A completed scan reports `version = true` only if it started true or
some `Sec-WebSocket-Version` header with trimmed value `13` occurred. -/
theorem scanState_version_true {hs : List Header} {u v u' v' : Bool}
    {a a' : Option Accept} {p e p' e' : List Bytes}
    (h : scanHeaders hs u v a p e = .state u' v' a' p' e') (hv' : v' = true) :
    v = true ∨ ∃ hd ∈ hs, isVersionName hd = true ∧
      bytes_trim hd.value = ascii "13" := by
  induction hs generalizing u v a p e with
  | nil =>
    rw [scanHeaders_nil] at h
    cases h
    exact Or.inl hv'
  | cons hd rest ih =>
    rcases scan_cons_step hd rest u v a p e with
      ⟨hk, ha, hs0⟩ | ⟨hk, ha, hs0⟩ | ⟨hk, hv, hval, hs0⟩ | ⟨hk, hv, hval, hs0⟩ |
      ⟨hpe, hdec, hs0⟩ | ⟨s, hp, hdec, hs0⟩ | ⟨s, hx, hdec, hs0⟩ |
      ⟨hu, huval, hs0⟩ | ⟨hu, huval, hs0⟩ | ⟨hk, hv, hp, hx, hu, hs0⟩
    · rw [hs0] at h; cases h
    · rw [hs0] at h
      rcases ih h with h1 | ⟨w, hw, hw2⟩
      · exact Or.inl h1
      · exact Or.inr ⟨w, List.mem_cons_of_mem _ hw, hw2⟩
    · rw [hs0] at h; cases h
    · exact Or.inr ⟨hd, List.mem_cons_self _ _, hv, hval⟩
    · rw [hs0] at h; cases h
    · rw [hs0] at h
      rcases ih h with h1 | ⟨w, hw, hw2⟩
      · exact Or.inl h1
      · exact Or.inr ⟨w, List.mem_cons_of_mem _ hw, hw2⟩
    · rw [hs0] at h
      rcases ih h with h1 | ⟨w, hw, hw2⟩
      · exact Or.inl h1
      · exact Or.inr ⟨w, List.mem_cons_of_mem _ hw, hw2⟩
    · rw [hs0] at h; cases h
    · rw [hs0] at h
      rcases ih h with h1 | ⟨w, hw, hw2⟩
      · exact Or.inl h1
      · exact Or.inr ⟨w, List.mem_cons_of_mem _ hw, hw2⟩
    · rw [hs0] at h
      rcases ih h with h1 | ⟨w, hw, hw2⟩
      · exact Or.inl h1
      · exact Or.inr ⟨w, List.mem_cons_of_mem _ hw, hw2⟩

/-- The scan ends in the `Ok(None)` reclassification only if some `Upgrade`
header with a value other than `websocket` (up to ASCII case) occurred. -/
theorem scan_notWebsocket_exists {hs : List Header} {u v : Bool}
    {a : Option Accept} {p e : List Bytes}
    (h : scanHeaders hs u v a p e = .notWebsocket) :
    ∃ hd ∈ hs, isUpgradeName hd = true ∧
      eqIgnoreAsciiCase hd.value websocketAscii = false := by
  induction hs generalizing u v a p e with
  | nil => rw [scanHeaders_nil] at h; cases h
  | cons hd rest ih =>
    rcases scan_cons_step hd rest u v a p e with
      ⟨hk, ha, hs0⟩ | ⟨hk, ha, hs0⟩ | ⟨hk, hv, hval, hs0⟩ | ⟨hk, hv, hval, hs0⟩ |
      ⟨hpe, hdec, hs0⟩ | ⟨s, hp, hdec, hs0⟩ | ⟨s, hx, hdec, hs0⟩ |
      ⟨hu, huval, hs0⟩ | ⟨hu, huval, hs0⟩ | ⟨hk, hv, hp, hx, hu, hs0⟩
    · rw [hs0] at h; cases h
    · rw [hs0] at h
      rcases ih h with ⟨w, hw, hw2⟩
      exact ⟨w, List.mem_cons_of_mem _ hw, hw2⟩
    · rw [hs0] at h; cases h
    · rw [hs0] at h
      rcases ih h with ⟨w, hw, hw2⟩
      exact ⟨w, List.mem_cons_of_mem _ hw, hw2⟩
    · rw [hs0] at h; cases h
    · rw [hs0] at h
      rcases ih h with ⟨w, hw, hw2⟩
      exact ⟨w, List.mem_cons_of_mem _ hw, hw2⟩
    · rw [hs0] at h
      rcases ih h with ⟨w, hw, hw2⟩
      exact ⟨w, List.mem_cons_of_mem _ hw, hw2⟩
    · exact ⟨hd, List.mem_cons_self _ _, hu, huval⟩
    · rw [hs0] at h
      rcases ih h with ⟨w, hw, hw2⟩
      exact ⟨w, List.mem_cons_of_mem _ hw, hw2⟩
    · rw [hs0] at h
      rcases ih h with ⟨w, hw, hw2⟩
      exact ⟨w, List.mem_cons_of_mem _ hw, hw2⟩

/-- A rejecting condition that precedes any non-`websocket` `Upgrade`
header makes the scan return `Err`. -/
theorem scan_err_of_earlyError {hs : List Header} {u v : Bool}
    {a : Option Accept} {p e : List Bytes}
    (h : hasEarlyError a.isSome hs = true) :
    scanHeaders hs u v a p e = .err := by
  induction hs generalizing u v a p e with
  | nil => simp [hasEarlyError] at h
  | cons hd rest ih =>
    rcases scan_cons_step hd rest u v a p e with
      ⟨hk, ha, hs0⟩ | ⟨hk, ha, hs0⟩ | ⟨hk, hv, hval, hs0⟩ | ⟨hk, hv, hval, hs0⟩ |
      ⟨hpe, hdec, hs0⟩ | ⟨s, hp, hdec, hs0⟩ | ⟨s, hx, hdec, hs0⟩ |
      ⟨hu, huval, hs0⟩ | ⟨hu, huval, hs0⟩ | ⟨hk, hv, hp, hx, hu, hs0⟩
    · exact hs0
    · rw [hs0]
      apply ih
      subst ha
      simpa [hasEarlyError, hk] using h
    · exact hs0
    · rw [hs0]
      apply ih
      simpa [hasEarlyError, hk, hv, hval] using h
    · exact hs0
    · rw [hs0]
      apply ih
      simpa [hasEarlyError, isProtocolName_not_key hp,
        isProtocolName_not_version hp, hp, hdec] using h
    · rw [hs0]
      apply ih
      simpa [hasEarlyError, isExtensionsName_not_key hx,
        isExtensionsName_not_version hx, isExtensionsName_not_protocol hx,
        hx, hdec] using h
    · have hm : isUpgradeMismatch hd = true := by
        simp [isUpgradeMismatch, hu, huval]
      simp [hasEarlyError, isUpgradeName_not_key hu,
        isUpgradeName_not_version hu, isUpgradeName_not_protocol hu,
        isUpgradeName_not_extensions hu, hm] at h
    · rw [hs0]
      apply ih
      have hm : isUpgradeMismatch hd = false := by
        simp [isUpgradeMismatch, hu, huval]
      simpa [hasEarlyError, isUpgradeName_not_key hu,
        isUpgradeName_not_version hu, isUpgradeName_not_protocol hu,
        isUpgradeName_not_extensions hu, hm] using h
    · rw [hs0]
      apply ih
      have hm : isUpgradeMismatch hd = false := by
        simp [isUpgradeMismatch, hu]
      simpa [hasEarlyError, hk, hv, hp, hx, hm] using h

/-- With one key already seen, a further key before any `Upgrade` mismatch
is an early rejecting condition. -/
theorem earlyError_of_keyBeforeMismatch {hs : List Header}
    (h : hasKeyBeforeMismatch hs = true) : hasEarlyError true hs = true := by
  induction hs with
  | nil => simp [hasKeyBeforeMismatch] at h
  | cons hd t ih =>
    by_cases hk : isKeyName hd = true
    · simp [hasEarlyError, hk]
    · by_cases hm : isUpgradeMismatch hd = true
      · simp [hasKeyBeforeMismatch, hk, hm] at h
      · have ht : hasKeyBeforeMismatch t = true := by
          simpa [hasKeyBeforeMismatch, hk, hm] using h
        by_cases hv : isVersionName hd = true
        · by_cases hval : bytes_trim hd.value = ascii "13"
          · simp [hasEarlyError, hk, hv, hval, ih ht]
          · simp [hasEarlyError, hk, hv, hval]
        · by_cases hpx : (isProtocolName hd || isExtensionsName hd) = true
          · cases hdec : utf8Decode hd.value with
            | none => simp [hasEarlyError, hk, hv, hpx, hdec]
            | some s => simp [hasEarlyError, hk, hv, hpx, hdec, ih ht]
          · simp [hasEarlyError, hk, hv, hpx, hm, ih ht]

/-- A duplicate key with no preceding `Upgrade` mismatch is an early
rejecting condition. -/
theorem earlyError_of_dupKeyNoEscape {hs : List Header}
    (h : hasDupKeyNoEscape hs = true) : hasEarlyError false hs = true := by
  induction hs with
  | nil => simp [hasDupKeyNoEscape] at h
  | cons hd t ih =>
    by_cases hk : isKeyName hd = true
    · have ht : hasKeyBeforeMismatch t = true := by
        simpa [hasDupKeyNoEscape, hk] using h
      simp [hasEarlyError, hk, earlyError_of_keyBeforeMismatch ht]
    · by_cases hm : isUpgradeMismatch hd = true
      · simp [hasDupKeyNoEscape, hk, hm] at h
      · have ht : hasDupKeyNoEscape t = true := by
          simpa [hasDupKeyNoEscape, hk, hm] using h
        by_cases hv : isVersionName hd = true
        · by_cases hval : bytes_trim hd.value = ascii "13"
          · simp [hasEarlyError, hk, hv, hval, ih ht]
          · simp [hasEarlyError, hk, hv, hval]
        · by_cases hpx : (isProtocolName hd || isExtensionsName hd) = true
          · cases hdec : utf8Decode hd.value with
            | none => simp [hasEarlyError, hk, hv, hpx, hdec]
            | some s => simp [hasEarlyError, hk, hv, hpx, hdec, ih ht]
          · simp [hasEarlyError, hk, hv, hpx, hm, ih ht]

/-- A bad version value with no preceding `Upgrade` mismatch is an early
rejecting condition, whatever the key state. -/
theorem earlyError_of_badVersionNoEscape {hs : List Header} (seen : Bool)
    (h : hasBadVersionNoEscape hs = true) : hasEarlyError seen hs = true := by
  induction hs generalizing seen with
  | nil => simp [hasBadVersionNoEscape] at h
  | cons hd t ih =>
    by_cases hk : isKeyName hd = true
    · have ht : hasBadVersionNoEscape t = true := by
        simpa [hasBadVersionNoEscape, hk] using h
      cases seen with
      | true => simp [hasEarlyError, hk]
      | false => simp [hasEarlyError, hk, ih true ht]
    · by_cases hv : isVersionName hd = true
      · by_cases hval : bytes_trim hd.value = ascii "13"
        · have ht : hasBadVersionNoEscape t = true := by
            simpa [hasBadVersionNoEscape, hk, hv, hval] using h
          simp [hasEarlyError, hk, hv, hval, ih seen ht]
        · simp [hasEarlyError, hk, hv, hval]
      · by_cases hm : isUpgradeMismatch hd = true
        · simp [hasBadVersionNoEscape, hk, hv, hm] at h
        · have ht : hasBadVersionNoEscape t = true := by
            simpa [hasBadVersionNoEscape, hk, hv, hm] using h
          by_cases hpx : (isProtocolName hd || isExtensionsName hd) = true
          · cases hdec : utf8Decode hd.value with
            | none => simp [hasEarlyError, hk, hv, hpx, hdec]
            | some s => simp [hasEarlyError, hk, hv, hpx, hdec, ih seen ht]
          · simp [hasEarlyError, hk, hv, hpx, hm, ih seen ht]

/-! ## Claim theorems -/

/-- C1: `get_handshake` returns a handshake only when every mandatory
condition holds at once — a `Connection` token case-insensitively equal to
`upgrade` after trimming, a present request-target, an `Upgrade` header
equal to `websocket` up to ASCII case, a `Sec-WebSocket-Version` header
with trimmed value `13`, exactly one `Sec-WebSocket-Key` header, and no
body; and the keep-alive example request yields a handshake with empty
protocol and extension lists. -/
theorem handshake_requires_all_conditions :
    (∀ req hsk, get_handshake req = .handshake hsk →
      connUpgradeTok req = true ∧ req.path.isSome = true ∧
      countName secWebsocketKey req.all_headers = 1 ∧
      (∃ hd ∈ req.all_headers, isUpgradeName hd = true ∧
        eqIgnoreAsciiCase hd.value websocketAscii = true) ∧
      (∃ hd ∈ req.all_headers, isVersionName hd = true ∧
        bytes_trim hd.value = ascii "13") ∧
      req.has_body = false) ∧
    get_handshake reqValid =
      .handshake ⟨Accept.from_key_bytes (ascii "dGhlIHNhbXBsZSBub25jZQ=="), [], []⟩ := by
  constructor
  · intro req hsk h
    cases hc : connUpgradeTok req with
    | false => simp [get_handshake, hc] at h
    | true =>
      cases hp : req.path with
      | none => simp [get_handshake, hc, hp] at h
      | some pv =>
        cases hscan : scanHeaders req.all_headers false false none [] [] with
        | err => simp [get_handshake, hc, hp, hscan] at h
        | notWebsocket => simp [get_handshake, hc, hp, hscan] at h
        | state u v a p e =>
          cases hb : req.has_body with
          | true => simp [get_handshake, hc, hp, hscan, hb] at h
          | false =>
            cases u with
            | false => simp [get_handshake, hc, hp, hscan, hb] at h
            | true =>
              cases v with
              | false => simp [get_handshake, hc, hp, hscan, hb] at h
              | true =>
                cases a with
                | none => simp [get_handshake, hc, hp, hscan, hb] at h
                | some a0 =>
                  refine ⟨rfl, rfl, ?_, ?_, ?_, rfl⟩
                  · rcases scanState_key_none hscan with ⟨hnone, _⟩ | ⟨_, hcount⟩
                    · cases hnone
                    · exact hcount
                  · rcases scanState_upgrade_true hscan rfl with h1 | hex
                    · simp at h1
                    · exact hex
                  · rcases scanState_version_true hscan rfl with h1 | hex
                    · simp at h1
                    · exact hex
  · decide

/-- C1 witness: the theorem applied to the concrete keep-alive example. -/
theorem handshake_requires_all_conditions_witness :
    connUpgradeTok reqValid = true ∧
    countName secWebsocketKey reqValid.all_headers = 1 ∧
    reqValid.has_body = false := by
  have h := handshake_requires_all_conditions.1 reqValid
    ⟨Accept.from_key_bytes (ascii "dGhlIHNhbXBsZSBub25jZQ=="), [], []⟩ (by decide)
  exact ⟨h.1, h.2.2.1, h.2.2.2.2.2⟩

/-- C2: `Ok(None)` arises exactly from the two not-applicable situations —
a missing `upgrade` token in `Connection`, or (with token and path present)
an `Upgrade` header naming something other than `websocket`; the
`Upgrade: h2c` example is reclassified, not rejected. -/
theorem notApplicable_characterization :
    (∀ req, connUpgradeTok req = false → get_handshake req = .notApplicable) ∧
    (∀ req, get_handshake req = .notApplicable →
      connUpgradeTok req = false ∨
      (req.path.isSome = true ∧ ∃ hd ∈ req.all_headers,
        isUpgradeName hd = true ∧
        eqIgnoreAsciiCase hd.value websocketAscii = false)) ∧
    get_handshake reqH2c = .notApplicable := by
  refine ⟨?_, ?_, by decide⟩
  · intro req h
    simp [get_handshake, h]
  · intro req h
    cases hc : connUpgradeTok req with
    | false => exact Or.inl rfl
    | true =>
      cases hp : req.path with
      | none => simp [get_handshake, hc, hp] at h
      | some pv =>
        cases hscan : scanHeaders req.all_headers false false none [] [] with
        | err => simp [get_handshake, hc, hp, hscan] at h
        | notWebsocket =>
          exact Or.inr ⟨rfl, scan_notWebsocket_exists hscan⟩
        | state u v a p e =>
          cases hb : req.has_body <;> cases u <;> cases v <;> cases a <;>
            simp [get_handshake, hc, hp, hscan, hb] at h

/-- C2 witness: the theorem's first part applied to a request with no
`Connection` header. -/
theorem notApplicable_characterization_witness :
    get_handshake
      { connection_header := none, path := some (ascii "/chat"),
        all_headers :=
          [⟨ascii "Upgrade", ascii "websocket"⟩,
           ⟨ascii "Sec-WebSocket-Version", ascii "13"⟩,
           ⟨ascii "Sec-WebSocket-Key", ascii "dGhlIHNhbXBsZSBub25jZQ=="⟩],
        has_body := false } = .notApplicable :=
  notApplicable_characterization.1 _ (by decide)

/-- C3 counterexample: in `reqSpacedUpgrade` the `Upgrade` value
`" websocket "` equals `websocket` case-insensitively after trimming, yet
`get_handshake` reclassifies the request as not a WebSocket request — the
`Upgrade` value is compared untrimmed, so the upgrade-confirmed flag is
not set and the otherwise-valid request is not accepted. -/
theorem upgrade_value_not_trimmed_counterexample :
    eqIgnoreAsciiCase (bytes_trim (ascii " websocket ")) websocketAscii = true ∧
    get_handshake reqSpacedUpgrade = .notApplicable := by decide

/-- C3 (amended): `Sec-WebSocket-Key` and `Sec-WebSocket-Version` values
are trimmed of surrounding CR/LF/space/tab before use, but the `Upgrade`
value is compared case-insensitively without trimming: a value equal to
`websocket` only after trimming makes the scan reclassify the request as
not a WebSocket request. -/
theorem header_value_trimming :
    (∀ hd rest u v p e, isKeyName hd = true →
      scanHeaders (hd :: rest) u v none p e =
        scanHeaders rest u v
          (some (Accept.from_key_bytes (bytes_trim hd.value))) p e) ∧
    (∀ hd rest u v a p e, isVersionName hd = true →
      bytes_trim hd.value = ascii "13" →
      scanHeaders (hd :: rest) u v a p e = scanHeaders rest u true a p e) ∧
    (∀ hd rest u v a p e, isUpgradeName hd = true →
      eqIgnoreAsciiCase (bytes_trim hd.value) websocketAscii = true →
      eqIgnoreAsciiCase hd.value websocketAscii = false →
      scanHeaders (hd :: rest) u v a p e = .notWebsocket) := by
  refine ⟨?_, ?_, ?_⟩
  · intro hd rest u v p e hk
    exact scanHeaders_key_first hk
  · intro hd rest u v a p e hv hval
    exact scanHeaders_version_ok hv hval
  · intro hd rest u v a p e hu _ hval
    exact scanHeaders_upgrade_mismatch hu hval

/-- C3 witness: the amended theorem's `Upgrade` part at the concrete
whitespace-padded value. -/
theorem header_value_trimming_witness :
    scanHeaders [⟨ascii "Upgrade", ascii " websocket "⟩]
      false false none [] [] = .notWebsocket :=
  header_value_trimming.2.2 _ [] false false none [] []
    (by decide) (by decide) (by decide)

/-- C4 counterexample: `reqDupKeyEscaped` has the connection token, a
path, and two `Sec-WebSocket-Key` headers, yet `get_handshake` returns
`Ok(None)` (an `Upgrade: h2c` between the keys ends the scan first), not
an error. -/
theorem duplicate_key_counterexample :
    countName secWebsocketKey reqDupKeyEscaped.all_headers = 2 ∧
    connUpgradeTok reqDupKeyEscaped = true ∧
    reqDupKeyEscaped.path.isSome = true ∧
    get_handshake reqDupKeyEscaped = .notApplicable := by decide

/-- C4 (amended): with the connection token and path present, a second
`Sec-WebSocket-Key` header is rejected with an error — provided no
`Upgrade` header with a non-`websocket` value precedes the second key (one
ends the scan with `Ok(None)` first); the second occurrence never
overwrites the first. -/
theorem duplicate_key_rejected (req : Head)
    (hc : connUpgradeTok req = true) (hp : req.path.isSome = true)
    (hdup : hasDupKeyNoEscape req.all_headers = true) :
    get_handshake req = .err := by
  have hscan : scanHeaders req.all_headers false false none [] [] = .err :=
    scan_err_of_earlyError (earlyError_of_dupKeyNoEscape hdup)
  cases hpv : req.path with
  | none => rw [hpv] at hp; cases hp
  | some pv => simp [get_handshake, hc, hpv, hscan]

/-- C4 witness: a request with two identical keys and no intervening
`Upgrade` mismatch is rejected. -/
theorem duplicate_key_rejected_witness :
    get_handshake reqDupKey = .err :=
  duplicate_key_rejected reqDupKey (by decide) (by decide) (by decide)

/-- C5 counterexample: `reqBadVerEscaped` has the connection token, a
path, and a `Sec-WebSocket-Version: 8` header, yet `get_handshake`
returns `Ok(None)` (the preceding `Upgrade: h2c` ends the scan first),
not the unsupported-version error; moreover the source's error type is
`()`, so no rejected value is recoverable from any error it returns. -/
theorem unsupported_version_counterexample :
    (∃ hd ∈ reqBadVerEscaped.all_headers, isVersionName hd = true ∧
      bytes_trim hd.value ≠ ascii "13") ∧
    connUpgradeTok reqBadVerEscaped = true ∧
    reqBadVerEscaped.path.isSome = true ∧
    get_handshake reqBadVerEscaped = .notApplicable := by decide

/-- C5 (amended): with the connection token and path present, a
`Sec-WebSocket-Version` header whose trimmed value is not `13` causes an
error — provided no `Upgrade` header with a non-`websocket` value precedes
it; the error is the unit value, so the rejected version value is only
logged, not recoverable from the error. -/
theorem unsupported_version_rejected (req : Head)
    (hc : connUpgradeTok req = true) (hp : req.path.isSome = true)
    (hbad : hasBadVersionNoEscape req.all_headers = true) :
    get_handshake req = .err := by
  have hscan : scanHeaders req.all_headers false false none [] [] = .err :=
    scan_err_of_earlyError (earlyError_of_badVersionNoEscape false hbad)
  cases hpv : req.path with
  | none => rw [hpv] at hp; cases hp
  | some pv => simp [get_handshake, hc, hpv, hscan]

/-- C5 witness: `Sec-WebSocket-Version: 8` with no preceding `Upgrade`
mismatch is rejected. -/
theorem unsupported_version_rejected_witness :
    get_handshake reqBadVer = .err :=
  unsupported_version_rejected reqBadVer (by decide) (by decide) (by decide)

/-- C6: protocol and extension values are parsed identically by splitting
the decoded text on commas, trimming each piece and discarding empty
pieces, appending across header occurrences in order; the `"chat,
superchat"` / `"binary"` example accumulates to three tokens and empty
segments are dropped. -/
theorem token_list_parsing :
    (∀ hd rest u v a p e s, isProtocolName hd = true →
      utf8Decode hd.value = some s →
      scanHeaders (hd :: rest) u v a p e =
        scanHeaders rest u v a (p ++ splitTokens s) e) ∧
    (∀ hd rest u v a p e s, isExtensionsName hd = true →
      utf8Decode hd.value = some s →
      scanHeaders (hd :: rest) u v a p e =
        scanHeaders rest u v a p (e ++ splitTokens s)) ∧
    splitTokens (ascii "chat, superchat") = [ascii "chat", ascii "superchat"] ∧
    splitTokens (ascii "chat, ,superchat") = [ascii "chat", ascii "superchat"] ∧
    get_handshake reqProtocols =
      .handshake ⟨Accept.from_key_bytes (ascii "dGhlIHNhbXBsZSBub25jZQ=="),
        [ascii "chat", ascii "superchat", ascii "binary"], []⟩ := by
  refine ⟨?_, ?_, by decide, by decide, by decide⟩
  · intro hd rest u v a p e s hp hdec
    exact scanHeaders_protocol_ok hp hdec
  · intro hd rest u v a p e s hx hdec
    exact scanHeaders_extensions_ok hx hdec

/-- C6 witness: the protocol-header step at a concrete value. -/
theorem token_list_parsing_witness :
    scanHeaders [⟨ascii "Sec-WebSocket-Protocol", ascii "chat, superchat"⟩]
        false false none [] [] =
      scanHeaders [] false false none
        ([] ++ splitTokens (ascii "chat, superchat")) [] :=
  token_list_parsing.1 _ [] false false none [] []
    (ascii "chat, superchat") (by decide) (by decide)

/-- C7: an otherwise-valid handshake request that carries a body is
rejected with an error after the scan completes, never accepted. -/
theorem body_rejected (req : Head) (a : Accept) (p e : List Bytes)
    (hc : connUpgradeTok req = true) (hp : req.path.isSome = true)
    (hscan : scanHeaders req.all_headers false false none [] [] =
      .state true true (some a) p e)
    (hb : req.has_body = true) :
    get_handshake req = .err := by
  cases hpv : req.path with
  | none => rw [hpv] at hp; cases hp
  | some pv => simp [get_handshake, hc, hpv, hscan, hb]

/-- C7 witness: the valid example request with a body is rejected. -/
theorem body_rejected_witness :
    get_handshake reqWithBody = .err :=
  body_rejected reqWithBody
    (Accept.from_key_bytes (ascii "dGhlIHNhbXBsZSBub25jZQ==")) [] []
    (by decide) (by decide) (by decide) (by decide)

/-- C8: a rejecting condition (duplicate key, bad version, or invalid
UTF-8 in a protocol/extensions value) occurring at an earlier header
position than any non-`websocket` `Upgrade` header makes `get_handshake`
return an error, not the `Ok(None)` reclassification. -/
theorem early_error_wins (req : Head)
    (hc : connUpgradeTok req = true) (hp : req.path.isSome = true)
    (he : hasEarlyError false req.all_headers = true) :
    get_handshake req = .err := by
  have hscan : scanHeaders req.all_headers false false none [] [] = .err :=
    scan_err_of_earlyError he
  cases hpv : req.path with
  | none => rw [hpv] at hp; cases hp
  | some pv => simp [get_handshake, hc, hpv, hscan]

/-- C8 witness: a duplicate key followed by `Upgrade: h2c` is an error. -/
theorem early_error_wins_witness :
    get_handshake reqDupKeyThenH2c = .err :=
  early_error_wins reqDupKeyThenH2c (by decide) (by decide) (by decide)

/-- C9: a freshly built config has `ping_interval = 10s`,
`message_timeout = byte_timeout = 30s` (the constructed code default),
and `max_packet_size = 10 × 2²⁰` bytes. -/
theorem config_new_defaults :
    Config.new.ping_interval = Duration.new 10 0 ∧
    Config.new.message_timeout = Duration.new 30 0 ∧
    Config.new.byte_timeout = Duration.new 30 0 ∧
    Config.new.max_packet_size = 10 * 2 ^ 20 := by
  refine ⟨rfl, rfl, rfl, by decide⟩

/-- C10: `inactivity_timeout` sets exactly the two timeout fields; each
individual setter overwrites exactly its own field; `done` is a value
copy of the builder's current fields, so handles finalized at different
times are independent values. -/
theorem config_setters_frame :
    ∀ (c : Config) (d : Duration) (n : Nat),
      ((c.inactivity_timeout d).message_timeout = d ∧
       (c.inactivity_timeout d).byte_timeout = d ∧
       (c.inactivity_timeout d).ping_interval = c.ping_interval ∧
       (c.inactivity_timeout d).max_packet_size = c.max_packet_size) ∧
      ((c.set_ping_interval d).ping_interval = d ∧
       (c.set_ping_interval d).message_timeout = c.message_timeout ∧
       (c.set_ping_interval d).byte_timeout = c.byte_timeout ∧
       (c.set_ping_interval d).max_packet_size = c.max_packet_size) ∧
      ((c.set_message_timeout d).message_timeout = d ∧
       (c.set_message_timeout d).ping_interval = c.ping_interval ∧
       (c.set_message_timeout d).byte_timeout = c.byte_timeout ∧
       (c.set_message_timeout d).max_packet_size = c.max_packet_size) ∧
      ((c.set_byte_timeout d).byte_timeout = d ∧
       (c.set_byte_timeout d).ping_interval = c.ping_interval ∧
       (c.set_byte_timeout d).message_timeout = c.message_timeout ∧
       (c.set_byte_timeout d).max_packet_size = c.max_packet_size) ∧
      ((c.set_max_packet_size n).max_packet_size = n ∧
       (c.set_max_packet_size n).ping_interval = c.ping_interval ∧
       (c.set_max_packet_size n).message_timeout = c.message_timeout ∧
       (c.set_max_packet_size n).byte_timeout = c.byte_timeout) ∧
      (Config.done c = c ∧
       (Config.done c).message_timeout = c.message_timeout ∧
       (Config.done ((Config.done c).set_message_timeout d)).message_timeout = d) := by
  intro c d n
  exact ⟨⟨rfl, rfl, rfl, rfl⟩, ⟨rfl, rfl, rfl, rfl⟩, ⟨rfl, rfl, rfl, rfl⟩,
    ⟨rfl, rfl, rfl, rfl⟩, ⟨rfl, rfl, rfl, rfl⟩, rfl, rfl, rfl⟩

end TkHttp
